import Mathlib

/-!
Verification development for the `tar1090-flightroutes` backend
(`flight_routes_api/backend.py`).  The Python source is shallowly embedded:
pure fragments become Lean functions, the Redis key-value store becomes an
explicit association list threaded through the operations, stored JSON texts
are modelled by a structured `JsonVal` type (the `json.dumps`/`json.loads`
wire round trip is treated as the injective correspondence between a JSON
value and its text), and fallible code returns `Except`.
-/

namespace FlightRoutes

/-! ### Character classes used by `CALLSIGN_REGEX` (backend.py line 22) -/

/-- The regex class `[A-Z]`: one ASCII uppercase letter. -/
def isUpperAZ (c : Char) : Bool :=
  decide ('A' ≤ c) && decide (c ≤ 'Z')

/-- The regex class `[0-9]`: one ASCII digit. -/
def isDigit09 (c : Char) : Bool :=
  decide ('0' ≤ c) && decide (c ≤ '9')

/-- The regex class `[A-Z0-9]`. -/
def isAlnumUC (c : Char) : Bool :=
  isUpperAZ c || isDigit09 c

/-! ### The validator: `CALLSIGN_REGEX.match(...)`

`CALLSIGN_REGEX = re.compile(r"^[A-Z]{3}[0-9][A-Z0-9]{0,4}$")` and the
endpoint keeps a plane iff `CALLSIGN_REGEX.match(plane.callsign)` is truthy.
Python `re.match` anchors at the start of the string, and `$` (without
`re.MULTILINE`) matches at the end of the string or just before a single
trailing newline.  `endOk` embeds that `$` semantics; `matchUpTo n`
embeds `[A-Z0-9]{0,n}$` acting on the remainder of the input. -/

/-- Python `$` (no MULTILINE): succeeds on the empty remainder or on a
remainder that is exactly one newline character. -/
def endOk : List Char → Bool
  | [] => true
  | [c] => c == '\n'
  | _ :: _ :: _ => false

/-- Embedding of `[A-Z0-9]{0,n}$` on the remaining characters. -/
def matchUpTo : Nat → List Char → Bool
  | 0, l => endOk l
  | n + 1, l =>
    endOk l ||
      (match l with
       | [] => false
       | c :: cs => isAlnumUC c && matchUpTo n cs)

/-- The regex `^[A-Z]{3}[0-9][A-Z0-9]{0,4}$` under Python `re.match`
semantics, on the string's characters. -/
def validateChars : List Char → Bool
  | a :: b :: c :: d :: rest =>
    isUpperAZ a && isUpperAZ b && isUpperAZ c && isDigit09 d && matchUpTo 4 rest
  | _ => false

/-- Embedding of `bool(CALLSIGN_REGEX.match(s))`: the validation applied to each
submitted callsign in `api_routeset` (backend.py line 174). -/
def validate (s : String) : Bool :=
  validateChars s.data

/-! ### The spec's grammar, for comparison with the implemented validator

Claim C2 describes the accepted language by the words "three uppercase
letters, one digit, then zero to four uppercase letters or digits, nothing
else".  `specGrammarChars` is written from those words (this is the one
definition in this file taken from the spec rather than from the source,
used to compare the implemented validator against the specified one). -/

/-- The claim's grammar on a character list: exactly three uppercase
letters, one digit, and zero to four uppercase letters or digits. -/
def specGrammarChars : List Char → Bool
  | a :: b :: c :: d :: rest =>
    isUpperAZ a && isUpperAZ b && isUpperAZ c && isDigit09 d &&
      decide (rest.length ≤ 4) && rest.all isAlnumUC
  | _ => false

/-- The claim's grammar on a string token. -/
def specCallsignGrammar (s : String) : Bool :=
  specGrammarChars s.data

/-- Remove one trailing newline character, if present. -/
def stripNL (l : List Char) : List Char :=
  match l.getLast? with
  | some c => if c = '\n' then l.dropLast else l
  | none => l

/-! ### JSON values and the RouteRecord data model

Stored Redis values are JSON texts.  They are modelled by the structured
value a successful `json.loads` produces: strings, integers, null, arrays
and objects (an object is its key/value list; `json.loads` keeps the last
occurrence of a duplicated key).  JSON numbers are modelled as integers and
JSON booleans are not modelled; neither occurs in data this system writes. -/

inductive JsonVal : Type where
  | jnull : JsonVal
  | jstr : String → JsonVal
  | jint : Int → JsonVal
  | jarr : List JsonVal → JsonVal
  | jobj : List (String × JsonVal) → JsonVal

/-- The `RouteResponse`/`RouteRequest` pydantic model (backend.py lines
43-62): `airport_codes_iata` (wire alias `_airport_codes_iata`),
`airport_codes`, `callsign`, `plausible`. -/
structure RouteRecord where
  airport_codes_iata : String
  airport_codes : String
  callsign : String
  /-- Embeds the source's integer field named `plausible`. -/
  plausibleFlag : Int
deriving DecidableEq, Repr

/-- A plane entry of the request body (backend.py lines 25-28): a callsign
plus optional position.  The source's `lat`/`lng` are floats; since the
endpoint never reads them (claim C9 proves this), their value type is
irrelevant and they are modelled as optional integers. -/
structure PlaneInstance where
  callsign : String
  lat : Option Int := none
  lng : Option Int := none
deriving DecidableEq, Repr

/-- Python dict lookup on an object built by `json.loads`: the last
occurrence of a duplicated key wins. -/
def jlookup (fields : List (String × JsonVal)) (k : String) : Option JsonVal :=
  (fields.reverse.find? (fun kv => kv.1 == k)).map (fun kv => kv.2)

/-- Pydantic validation of a `str` field: only a JSON string is accepted
(pydantic v2 does not coerce numbers to strings). -/
def coerceStr : JsonVal → Option String
  | .jstr s => some s
  | _ => none

/-- Pydantic validation of an `int` field: a JSON integer, or (lax mode)
a string spelling an integer. -/
def coerceInt : JsonVal → Option Int
  | .jint n => some n
  | .jstr s => s.toInt?
  | _ => none

/-- Field lookup honouring `populate_by_name = True`: the wire alias is
consulted first, then the field name. -/
def aliasLookup (fields : List (String × JsonVal)) (wireAlias fieldName : String) :
    Option JsonVal :=
  match jlookup fields wireAlias with
  | some v => some v
  | none => jlookup fields fieldName

/-- Embedding of `RouteResponse(**json.loads(text))` (backend.py line 144): succeeds only
on a JSON object carrying all four fields with admissible types; any other
stored value raises (JSONDecodeError / TypeError / pydantic
ValidationError), i.e. decodes to `none` here. -/
def decodeRecord : JsonVal → Option RouteRecord
  | .jobj fields => do
    let iata ← aliasLookup fields "_airport_codes_iata" "airport_codes_iata"
    let iata ← coerceStr iata
    let codes ← jlookup fields "airport_codes" >>= coerceStr
    let cs ← jlookup fields "callsign" >>= coerceStr
    let pl ← jlookup fields "plausible" >>= coerceInt
    some ⟨iata, codes, cs, pl⟩
  | _ => none

/-- Embedding of `json.dumps(route.dict(by_alias=True))` (backend.py lines 258-259),
as the JSON value the produced text parses back to. -/
def encodeRecord (r : RouteRecord) : JsonVal :=
  .jobj [("_airport_codes_iata", .jstr r.airport_codes_iata),
         ("airport_codes", .jstr r.airport_codes),
         ("callsign", .jstr r.callsign),
         ("plausible", .jint r.plausibleFlag)]

/-! ### The Redis store

The store is the finite map held by the Redis instance, modelled as an
association list with at most one binding per key (Redis key space).
`storeGet`/`storeSet` are `redis.get`/`redis.set`; `scanKeys` is
`scan_iter("route:*")` (the glob matches exactly the keys with prefix
`route:`; scan order is modelled as store order). -/

abbrev Store : Type := List (String × JsonVal)

/-- Embedding of `await redis_pool.get(key)`. -/
def storeGet (st : Store) (k : String) : Option JsonVal :=
  (st.find? (fun kv => kv.1 == k)).map (fun kv => kv.2)

/-- Embedding of `await redis_pool.set(key, value)`: upsert, keeping one binding per key. -/
def storeSet : Store → String → JsonVal → Store
  | [], k, v => [(k, v)]
  | (k', v') :: rest, k, v =>
    if k' == k then (k, v) :: rest else (k', v') :: storeSet rest k v

/-- Does a key match the glob `route:*`, i.e. start with `route:`? -/
def matchesRouteGlob (k : String) : Bool :=
  match k.data with
  | 'r' :: 'o' :: 'u' :: 't' :: 'e' :: ':' :: _ => true
  | _ => false

/-- Embedding of `[key async for key in redis_pool.scan_iter("route:*")]`. -/
def scanKeys (st : Store) : List String :=
  (st.map (fun kv => kv.1)).filter matchesRouteGlob

/-- Python `str.split(":")` on a character list: `splitColonAux l acc`
processes `l` with `acc` holding the reversed current segment. -/
def splitColonAux : List Char → List Char → List (List Char)
  | [], acc => [acc.reverse]
  | c :: cs, acc =>
    if c = ':' then acc.reverse :: splitColonAux cs [] else splitColonAux cs (c :: acc)

/-- Python `key.split(":")`. -/
def splitColon (l : List Char) : List (List Char) :=
  splitColonAux l []

/-- Embedding of `key.split(":")[1]` (backend.py lines 195 and 208): the segment of the
key between its first and second `:`. -/
def stripKey (k : String) : String :=
  String.mk ((splitColon k.data).getD 1 [])

/-- Embedding of the Python expression building the namespaced store key
`route:` + callsign. -/
def routeKey (callsign : String) : String :=
  "route:" ++ callsign

/-! ### Fault model

Each constructor names the failure the spec's error taxonomy gives to the
corresponding Python exception path:
`tooManyItems` = the explicit HTTP 413 (its payload is the configured limit
stated in the message); `unauthorized` = HTTP 403 from the credential
check; `malformedRecord` = the uncaught JSON/pydantic exception when a
stored value does not parse into a RouteRecord (HTTP 500);
`unboundLocalFault` / `attributeFault` = the uncaught Python
`UnboundLocalError` / `AttributeError` runtime faults reachable in
`get_callsigns_by_plausibility` (HTTP 500). -/

inductive Fault : Type where
  | tooManyItems : Nat → Fault
  | unauthorized : Fault
  | malformedRecord : Fault
  | unboundLocalFault : Fault
  | attributeFault : Fault
deriving DecidableEq, Repr

/-! ### Route resolver and batch endpoint -/

/-- Embedding of `get_route_for_callsign` (backend.py lines 133-144): fetch
`route:{callsign}`; absence synthesizes the default unknown record; a
present value that does not decode raises (`malformedRecord`). -/
def get_route_for_callsign (st : Store) (callsign : String) :
    Except Fault RouteRecord :=
  match storeGet st (routeKey callsign) with
  | none => .ok ⟨"unknown", "unknown", callsign, 0⟩
  | some v =>
    match decodeRecord v with
    | some r => .ok r
    | none => .error .malformedRecord

/-- Embedding of `await asyncio.gather(*tasks)`: succeeds with the results in task
order iff every task succeeds; otherwise the batch fails with one of the
raised errors (which one the source surfaces depends on completion timing;
the embedding deterministically picks the first in task order — no theorem
below depends on that choice). -/
def gatherExcept {ε α : Type} : List (Except ε α) → Except ε (List α)
  | [] => .ok []
  | .error e :: _ => .error e
  | .ok a :: rest => (gatherExcept rest).map (fun l => a :: l)

/-- Embedding of `api_routeset` (backend.py lines 158-178).  First component: the HTTP
outcome.  Second component: the sequence of Redis keys fetched while
serving the request (one GET per spawned task; empty when the limit check
rejects the batch before any task is created). -/
def api_routeset (st : Store) (limit : Nat) (planes : List PlaneInstance) :
    Except Fault (List RouteRecord) × List String :=
  if planes.length > limit then
    (.error (.tooManyItems limit), [])
  else
    let valid := planes.filter (fun p => validate p.callsign)
    (gatherExcept (valid.map (fun p => get_route_for_callsign st p.callsign)),
     valid.map (fun p => routeKey p.callsign))

/-! ### Credential check and admin endpoints

`api_key_header = APIKeyHeader(name="api_key", auto_error=True)` raises
HTTP 403 when the header is absent, and `get_api_key` (backend.py lines
110-116) raises HTTP 403 when the presented value differs from the
configured secret by exact string comparison.  `cfg` is the configured
`settings.api_key`; `hdr` is the request's `api_key` header, `none` when
absent. -/

/-- The credential gate every admin endpoint depends on. -/
def get_api_key (cfg : String) (hdr : Option String) : Except Fault String :=
  match hdr with
  | none => .error .unauthorized
  | some h => if h = cfg then .ok h else .error .unauthorized

/-- The body of `get_all_callsigns` (backend.py lines 186-195), after the
credential gate: scan the `route:` namespace and report
`key.split(":")[1]` for every key. -/
def all_callsigns_core (st : Store) : List String :=
  (scanKeys st).map stripKey

/-- Endpoint `GET /api/all_callsigns`. -/
def api_all_callsigns (cfg : String) (hdr : Option String) (st : Store) :
    Except Fault (List String) := do
  let _ ← get_api_key cfg hdr
  .ok (all_callsigns_core st)

/-- Python `x == p` where `p` is an int and `x` is `dict.get`'s result
(a decoded JSON value, or `None` when the key is missing): true only for
the equal integer. -/
def pyEqInt (v : Option JsonVal) (p : Int) : Bool :=
  match v with
  | some (.jint n) => n == p
  | _ => false

/-- The filtering comprehension of `get_callsigns_by_plausibility`
(backend.py lines 207-212) over the scanned keys zipped with their
`mget` values: a `None` value is skipped (the condition short-circuits);
otherwise `json.loads(value).get("plausible") == plausible` keeps the key —
but `.get` on a decoded non-object raises `AttributeError`. -/
def filterPlausible (p : Int) : List (String × Option JsonVal) →
    Except Fault (List String)
  | [] => .ok []
  | (_, none) :: rest => filterPlausible p rest
  | (k, some (.jobj fields)) :: rest => do
    let tail ← filterPlausible p rest
    if pyEqInt (jlookup fields "plausible") p then
      .ok (stripKey k :: tail)
    else
      .ok tail
  | (_, some _) :: _ => .error .attributeFault

/-- Embedding of `get_callsigns_by_plausibility` (backend.py lines 198-214).  The local
`callsigns` is assigned only inside `if keys:`, so when the scan yields no
keys the final `return callsigns` raises `UnboundLocalError`. -/
def get_callsigns_by_plausibility (st : Store) (p : Int) :
    Except Fault (List String) :=
  let keys := scanKeys st
  if keys.isEmpty then
    .error .unboundLocalFault
  else
    filterPlausible p (keys.map (fun k => (k, storeGet st k)))

/-- Endpoint `GET /api/unplausible_callsigns`. -/
def api_unplausible_callsigns (cfg : String) (hdr : Option String) (st : Store) :
    Except Fault (List String) := do
  let _ ← get_api_key cfg hdr
  get_callsigns_by_plausibility st 0

/-- Endpoint `GET /api/plausible_callsigns`. -/
def api_plausible_callsigns (cfg : String) (hdr : Option String) (st : Store) :
    Except Fault (List String) := do
  let _ ← get_api_key cfg hdr
  get_callsigns_by_plausibility st 1

/-- Endpoint `GET /api/route/` callsign (backend.py lines 237-246). -/
def api_get_route (cfg : String) (hdr : Option String) (st : Store)
    (callsign : String) : Except Fault RouteRecord := do
  let _ ← get_api_key cfg hdr
  get_route_for_callsign st callsign

/-- The success payload of `set_route`:
`{"status": "success", "message": f"Route set for {route.callsign}."}`. -/
structure SetResponse where
  status : String
  message : String
deriving DecidableEq, Repr

/-- The body of `set_route` (backend.py lines 249-260), after the
credential gate: serialize the record and store it under
`route:{route.callsign}`, unconditionally; returns the success payload and
the updated store. -/
def set_route (st : Store) (r : RouteRecord) : SetResponse × Store :=
  (⟨"success", "Route set for " ++ r.callsign ++ "."⟩,
   storeSet st (routeKey r.callsign) (encodeRecord r))

/-- Endpoint `POST /api/set_route`: on a failed credential check the store is
untouched. -/
def api_set_route (cfg : String) (hdr : Option String) (st : Store)
    (r : RouteRecord) : Except Fault SetResponse × Store :=
  match get_api_key cfg hdr with
  | .error e => (.error e, st)
  | .ok _ => ((Except.ok (set_route st r).1), (set_route st r).2)

/-! ### Helper lemmas about the store -/

/-- Writing a key and reading it back yields the written value. -/
theorem storeGet_storeSet_self (st : Store) (k : String) (v : JsonVal) :
    storeGet (storeSet st k v) k = some v := by
  induction st with
  | nil => simp [storeSet, storeGet, List.find?]
  | cons hd tl ih =>
    obtain ⟨k', v'⟩ := hd
    by_cases h : k' == k
    · simp [storeSet, h, storeGet, List.find?]
    · simp only [storeSet, h, if_false, Bool.false_eq_true]
      simpa [storeGet, List.find?, h] using ih

/-- A written key is among the store's keys. -/
theorem mem_keys_storeSet (st : Store) (k : String) (v : JsonVal) :
    k ∈ (storeSet st k v).map (fun kv => kv.1) := by
  induction st with
  | nil => simp [storeSet]
  | cons hd tl ih =>
    obtain ⟨k', v'⟩ := hd
    by_cases h : k' == k
    · simp [storeSet, h]
    · simp only [storeSet, h, if_false, Bool.false_eq_true]
      simpa using Or.inr ih

/-- Every namespaced key matches the scan glob `route:*`. -/
theorem matchesRouteGlob_routeKey (cs : String) :
    matchesRouteGlob (routeKey cs) = true := by
  unfold matchesRouteGlob routeKey
  rw [String.data_append]
  rfl

/-! ### Helper lemmas about the resolver and the gather step -/

/-- The resolver's only failure is the malformed-record fault. -/
theorem get_route_error_eq (st : Store) (cs : String) (e : Fault)
    (h : get_route_for_callsign st cs = .error e) : e = .malformedRecord := by
  unfold get_route_for_callsign at h
  cases hg : storeGet st (routeKey cs) with
  | none => rw [hg] at h; simp at h
  | some v =>
    rw [hg] at h
    cases hd : decodeRecord v with
    | some r => simp [hd] at h
    | none =>
      simp only [hd] at h
      simpa using h.symm

/-- A failed gather reports an error raised by one of its tasks. -/
theorem gatherExcept_error_mem {ε α : Type} (l : List (Except ε α)) (e : ε)
    (h : gatherExcept l = .error e) : Except.error e ∈ l := by
  induction l with
  | nil => simp [gatherExcept] at h
  | cons hd tl ih =>
    cases hd with
    | error e' =>
      simp only [gatherExcept, Except.error.injEq] at h
      subst h
      exact List.mem_cons_self _ _
    | ok a =>
      simp only [gatherExcept] at h
      cases hg : gatherExcept tl with
      | ok out => rw [hg] at h; simp [Except.map] at h
      | error e' =>
        rw [hg] at h
        simp only [Except.map, Except.error.injEq] at h
        subst h
        exact List.mem_cons_of_mem _ (ih hg)

/-- A gather succeeds with `out` exactly when its tasks are, in order, the
successes listed by `out`. -/
theorem gatherExcept_ok_iff {ε α : Type} (l : List (Except ε α)) (out : List α) :
    gatherExcept l = .ok out ↔ l = out.map Except.ok := by
  induction l generalizing out with
  | nil => cases out <;> simp [gatherExcept]
  | cons hd tl ih =>
    cases hd with
    | error e => cases out <;> simp [gatherExcept]
    | ok a =>
      cases out with
      | nil =>
        cases hg : gatherExcept tl <;> simp [gatherExcept, hg, Except.map]
      | cons b out' =>
        cases hg : gatherExcept tl with
        | error e =>
          have : ¬ tl = out'.map Except.ok := by
            intro hc
            rw [← ih out'] at hc
            rw [hg] at hc
            exact Except.noConfusion hc
          simp [gatherExcept, hg, Except.map, this]
        | ok out'' =>
          have htl : tl = out''.map Except.ok := (ih out'').mp hg
          constructor
          · intro h
            simp only [gatherExcept, hg, Except.map, Except.ok.injEq,
              List.cons.injEq] at h
            obtain ⟨h1, h2⟩ := h
            subst h1
            subst h2
            simp [htl]
          · intro h
            simp only [List.map_cons, List.cons.injEq] at h
            obtain ⟨h1, h2⟩ := h
            injection h1 with h1
            subst h1
            have : gatherExcept tl = .ok out' := (ih out').mpr h2
            rw [hg] at this
            simp only [Except.ok.injEq] at this
            subst this
            simp [gatherExcept, hg, Except.map]

/-! ### Lemmas about the regex embedding -/

/-- The pattern `[A-Z0-9]{0,n}$` always accepts an exhausted input. -/
theorem matchUpTo_nil_true (n : Nat) : matchUpTo n [] = true := by
  cases n <;> rfl

/-- The function `stripNL` acts on the tail of a two-or-more element list. -/
theorem stripNL_cons_cons (c d : Char) (l : List Char) :
    stripNL (c :: d :: l) = c :: stripNL (d :: l) := by
  unfold stripNL
  rw [List.getLast?_cons_cons]
  cases h : (d :: l).getLast? with
  | none => rfl
  | some x =>
    by_cases hx : x = '\n'
    · simp [hx]
    · simp [hx]

/-- Removing a trailing newline never lengthens the list. -/
theorem stripNL_length_le (l : List Char) : (stripNL l).length ≤ l.length := by
  unfold stripNL
  cases h : l.getLast? with
  | none => exact le_rfl
  | some x =>
    by_cases hx : x = '\n'
    · simp [hx, List.length_dropLast]
    · simp [hx]

/-- The spec grammar rejects every token shorter than four characters. -/
theorem specGrammarChars_short (l : List Char) (h : l.length < 4) :
    specGrammarChars l = false := by
  rcases l with _ | ⟨a, _ | ⟨b, _ | ⟨c, _ | ⟨d, rest⟩⟩⟩⟩
  · rfl
  · rfl
  · rfl
  · rfl
  · simp at h
    omega

/-- The pattern `[A-Z0-9]{0,n}$` under Python `$` semantics accepts a remainder exactly
when, after removing one trailing newline if present, it is at most `n`
characters all in `[A-Z0-9]`. -/
theorem matchUpTo_eq (l : List Char) : ∀ n, matchUpTo n l
    = (decide ((stripNL l).length ≤ n) && (stripNL l).all isAlnumUC) := by
  induction l with
  | nil =>
    intro n
    rw [matchUpTo_nil_true]
    simp [stripNL]
  | cons c cs ih =>
    intro n
    cases cs with
    | nil =>
      by_cases hc : c = '\n'
      · subst hc
        cases n with
        | zero => decide
        | succ m =>
          simp [matchUpTo, endOk, stripNL, matchUpTo_nil_true]
      · cases n with
        | zero =>
          simp [matchUpTo, endOk, stripNL, hc]
        | succ m =>
          simp [matchUpTo, endOk, stripNL, hc, matchUpTo_nil_true]
    | cons d ds =>
      have hs := stripNL_cons_cons c d ds
      cases n with
      | zero =>
        simp only [matchUpTo, endOk, hs]
        simp
      | succ m =>
        simp only [matchUpTo, hs]
        rw [ih m]
        simp only [endOk, List.length_cons, List.all_cons, Bool.false_or]
        rw [show (decide ((stripNL (d :: ds)).length + 1 ≤ m + 1))
            = decide ((stripNL (d :: ds)).length ≤ m) from by
          simp [Nat.succ_le_succ_iff]]
        rw [Bool.and_left_comm]

/-- The implemented validator, on characters: the spec grammar applied
after removing at most one trailing newline. -/
theorem validateChars_eq_spec (l : List Char) :
    validateChars l = specGrammarChars (stripNL l) := by
  rcases l with _ | ⟨a, _ | ⟨b, _ | ⟨c, _ | ⟨d, rest⟩⟩⟩⟩
  · rfl
  · rw [specGrammarChars_short _ (by have := stripNL_length_le [a]; simp at this; omega)]
    rfl
  · rw [specGrammarChars_short _ (by have := stripNL_length_le [a, b]; simp at this; omega)]
    rfl
  · rw [specGrammarChars_short _ (by have := stripNL_length_le [a, b, c]; simp at this; omega)]
    rfl
  · cases rest with
    | nil =>
      by_cases hd4 : d = '\n'
      · subst hd4
        rw [stripNL_cons_cons, stripNL_cons_cons, stripNL_cons_cons]
        rw [show stripNL ['\n'] = [] from rfl]
        simp [validateChars, specGrammarChars, show isDigit09 '\n' = false from by decide]
      · rw [stripNL_cons_cons, stripNL_cons_cons, stripNL_cons_cons]
        rw [show stripNL [d] = if d = '\n' then [] else [d] from rfl, if_neg hd4]
        simp [validateChars, specGrammarChars, matchUpTo_nil_true]
    | cons r rs =>
      rw [stripNL_cons_cons, stripNL_cons_cons, stripNL_cons_cons, stripNL_cons_cons]
      simp [validateChars, specGrammarChars, matchUpTo_eq (r :: rs) 4, Bool.and_assoc]

/-! ### Claim theorems -/

/-- Claim C2, counterexample to the claim as stated: the token
`"AFR136\n"`, which carries a trailing newline and does not match the
claim's anchored grammar, is nevertheless accepted by the validator
(Python's `$` also matches just before a single trailing newline). -/
theorem c2_validator_counterexample :
    validate "AFR136\n" = true ∧ specCallsignGrammar "AFR136\n" = false :=
  ⟨by decide, by decide⟩

/-- Claim C2 (amended): the validator accepts exactly the tokens that
match the grammar `^[A-Z]{3}[0-9][A-Z0-9]{0,4}$` after removing at most
one trailing newline (Python `re` `$` semantics); it is otherwise
case-sensitive with no whitespace tolerance, deterministic and total. -/
theorem c2_validator_amended (s : String) :
    validate s = specGrammarChars (stripNL s.data) :=
  validateChars_eq_spec s.data

theorem c2_validator_amended_witness :
    validate "AFR136\n" = specGrammarChars (stripNL "AFR136\n".data) :=
  c2_validator_amended "AFR136\n"

/-- Claim C3: for every callsign with no entry stored under
`route:{callsign}`, the resolver returns (without error) the synthesized
default record — IATA and ICAO codes `"unknown"`, the queried callsign,
`plausible = 0`; absence is never reported as a failure. -/
theorem c3_absent_default (st : Store) (cs : String)
    (h : storeGet st (routeKey cs) = none) :
    get_route_for_callsign st cs = .ok ⟨"unknown", "unknown", cs, 0⟩ := by
  simp [get_route_for_callsign, h]

theorem c3_absent_default_witness :
    storeGet [] (routeKey "AFR136") = none ∧
      get_route_for_callsign [] "AFR136"
        = .ok ⟨"unknown", "unknown", "AFR136", 0⟩ :=
  ⟨rfl, c3_absent_default [] "AFR136" rfl⟩

/-- Claim C4: the admin set operation followed by the single-route get for
the same callsign, with no interleaved writes, returns the record
field-for-field: serialization and deserialization preserve every
well-formed RouteRecord. -/
theorem c4_set_then_get (st : Store) (r : RouteRecord) :
    get_route_for_callsign (set_route st r).2 r.callsign = .ok r := by
  unfold get_route_for_callsign set_route
  rw [storeGet_storeSet_self]
  rfl

theorem c4_set_then_get_witness :
    get_route_for_callsign
        (set_route [] ⟨"CDG-ORD", "LFPG-KORD", "AFR136", 1⟩).2 "AFR136"
      = .ok ⟨"CDG-ORD", "LFPG-KORD", "AFR136", 1⟩ :=
  c4_set_then_get [] ⟨"CDG-ORD", "LFPG-KORD", "AFR136", 1⟩

/-- Claim C6: a stored value under `route:{callsign}` that cannot be parsed
into a RouteRecord makes the resolver fail with the server-side
malformed-record fault; it is never silently converted into the default
"unknown" record or any other normal-looking response. -/
theorem c6_malformed_fault (st : Store) (cs : String) (v : JsonVal)
    (h1 : storeGet st (routeKey cs) = some v) (h2 : decodeRecord v = none) :
    get_route_for_callsign st cs = .error .malformedRecord := by
  simp [get_route_for_callsign, h1, h2]

theorem c6_malformed_fault_witness :
    storeGet [(routeKey "AFR136", JsonVal.jstr "oops")] (routeKey "AFR136")
        = some (JsonVal.jstr "oops") ∧
      decodeRecord (JsonVal.jstr "oops") = none ∧
      get_route_for_callsign [(routeKey "AFR136", JsonVal.jstr "oops")] "AFR136"
        = .error .malformedRecord :=
  ⟨rfl, rfl, c6_malformed_fault _ "AFR136" (JsonVal.jstr "oops") rfl rfl⟩

/-- Claim C5: a batch longer than the configured plane limit fails with the
413 too-many-items error carrying the limit, with zero store accesses and
no per-item processing; a batch within (in particular exactly at) the
limit is never rejected by this bound. -/
theorem c5_batch_limit (st : Store) (limit : Nat) (planes : List PlaneInstance) :
    (planes.length > limit →
      api_routeset st limit planes = (.error (.tooManyItems limit), []))
    ∧ (planes.length ≤ limit →
        ∀ n, (api_routeset st limit planes).1 ≠ .error (.tooManyItems n)) := by
  constructor
  · intro h
    simp [api_routeset, h]
  · intro h n hcontra
    simp only [api_routeset, gt_iff_lt, Nat.not_lt.mpr h, if_false] at hcontra
    have hmem := gatherExcept_error_mem _ _ hcontra
    obtain ⟨p, hp, hpe⟩ := List.mem_map.mp hmem
    have := get_route_error_eq _ _ _ hpe
    simp at this

theorem c5_batch_limit_witness :
    api_routeset [] 1 [⟨"AFR136", none, none⟩, ⟨"DLH430", none, none⟩]
        = (.error (.tooManyItems 1), [])
    ∧ (api_routeset [] 1 [⟨"AFR136", none, none⟩]).1 ≠ .error (.tooManyItems 1) :=
  ⟨(c5_batch_limit [] 1 _).1 (by decide),
   (c5_batch_limit [] 1 _).2 (by decide) 1⟩

/-- Claim C8: every admin request whose credential header is absent, or
differs from the configured secret under exact string comparison, fails
with the 403 unauthorized error before the underlying operation runs —
for all five admin endpoints alike — and (being a constant error,
independent of the store) discloses nothing about stored routes; the set
endpoint leaves the store untouched. -/
theorem c8_admin_auth (cfg : String) (hdr : Option String) (st : Store)
    (cs : String) (r : RouteRecord) (h : hdr ≠ some cfg) :
    api_all_callsigns cfg hdr st = .error .unauthorized
    ∧ api_unplausible_callsigns cfg hdr st = .error .unauthorized
    ∧ api_plausible_callsigns cfg hdr st = .error .unauthorized
    ∧ api_get_route cfg hdr st cs = .error .unauthorized
    ∧ api_set_route cfg hdr st r = (.error .unauthorized, st) := by
  have hk : get_api_key cfg hdr = .error .unauthorized := by
    cases hdr with
    | none => rfl
    | some x =>
      have hx : ¬ x = cfg := fun hxe => h (by rw [hxe])
      simp [get_api_key, hx]
  refine ⟨?_, ?_, ?_, ?_, ?_⟩ <;>
    simp [api_all_callsigns, api_unplausible_callsigns, api_plausible_callsigns,
      api_get_route, api_set_route, hk, Bind.bind, Except.bind]

theorem c8_admin_auth_witness :
    api_all_callsigns "secret" (some "wrong") [] = .error .unauthorized
    ∧ api_unplausible_callsigns "secret" (some "wrong") [] = .error .unauthorized
    ∧ api_plausible_callsigns "secret" (some "wrong") [] = .error .unauthorized
    ∧ api_get_route "secret" (some "wrong") [] "AFR136" = .error .unauthorized
    ∧ api_set_route "secret" (some "wrong") []
        ⟨"CDG-ORD", "LFPG-KORD", "AFR136", 1⟩ = (.error .unauthorized, []) :=
  c8_admin_auth "secret" (some "wrong") [] "AFR136"
    ⟨"CDG-ORD", "LFPG-KORD", "AFR136", 1⟩ (by decide)

/-- Claim C1: for a batch within the limit, the endpoint succeeds with
`out` exactly when the validation-surviving inputs, in their submitted
order, resolve to the records of `out` — so invalid items are silently
dropped with no error, the i-th output is the resolution of the i-th
surviving input, and the output length is the number of inputs passing
validation (the embedding is deterministic, so completion timing cannot
influence the order). -/
theorem c1_batch_order (st : Store) (limit : Nat) (planes : List PlaneInstance)
    (out : List RouteRecord) (hlim : planes.length ≤ limit) :
    ((api_routeset st limit planes).1 = .ok out ↔
      (planes.filter (fun p => validate p.callsign)).map
          (fun p => get_route_for_callsign st p.callsign)
        = out.map Except.ok)
    ∧ ((api_routeset st limit planes).1 = .ok out →
        out.length = (planes.filter (fun p => validate p.callsign)).length) := by
  have key : (api_routeset st limit planes).1
      = gatherExcept ((planes.filter (fun p => validate p.callsign)).map
          (fun p => get_route_for_callsign st p.callsign)) := by
    simp [api_routeset, Nat.not_lt.mpr hlim]
  constructor
  · rw [key]
    exact gatherExcept_ok_iff _ _
  · intro h
    rw [key] at h
    have hmap := (gatherExcept_ok_iff _ _).mp h
    have hlen := congrArg List.length hmap
    simpa using hlen.symm

theorem c1_batch_order_witness :
    (api_routeset [] 100 [⟨"AFR136", some 49, some (-8)⟩, ⟨"DEOZK", none, none⟩]).1
      = .ok [⟨"unknown", "unknown", "AFR136", 0⟩] :=
  (c1_batch_order [] 100
      [⟨"AFR136", some 49, some (-8)⟩, ⟨"DEOZK", none, none⟩]
      [⟨"unknown", "unknown", "AFR136", 0⟩] (by decide)).1.mpr (by rfl)

/-- The surviving callsign sequence depends on the input only through its
callsign sequence. -/
theorem filtered_callsigns_eq (ps qs : List PlaneInstance)
    (h : ps.map PlaneInstance.callsign = qs.map PlaneInstance.callsign) :
    (ps.filter (fun p => validate p.callsign)).map PlaneInstance.callsign
      = (qs.filter (fun p => validate p.callsign)).map PlaneInstance.callsign := by
  induction ps generalizing qs with
  | nil =>
    cases qs with
    | nil => rfl
    | cons q qs' => simp at h
  | cons p ps' ih =>
    cases qs with
    | nil => simp at h
    | cons q qs' =>
      simp only [List.map_cons, List.cons.injEq] at h
      obtain ⟨h1, h2⟩ := h
      by_cases hv : validate p.callsign
      · simp [List.filter_cons, hv, ← h1, ih qs' h2]
      · simp [List.filter_cons, hv, ← h1, ih qs' h2]

/-- Claim C9: two batches with identical callsign sequences but arbitrary
(or absent) positions produce identical responses against the same store:
coordinates never influence validation, lookup, or output — the full
result, store accesses included, coincides. -/
theorem c9_position_ignored (st : Store) (limit : Nat)
    (ps qs : List PlaneInstance)
    (h : ps.map PlaneInstance.callsign = qs.map PlaneInstance.callsign) :
    api_routeset st limit ps = api_routeset st limit qs := by
  have hlen : ps.length = qs.length := by
    have := congrArg List.length h
    simpa using this
  have hfc := filtered_callsigns_eq ps qs h
  have emap : ∀ (l : List PlaneInstance) (f : String → Except Fault RouteRecord),
      l.map (fun p => f p.callsign) = (l.map PlaneInstance.callsign).map f := by
    intro l f
    rw [List.map_map]
    rfl
  have ekey : ∀ (l : List PlaneInstance),
      l.map (fun p => routeKey p.callsign)
        = (l.map PlaneInstance.callsign).map routeKey := by
    intro l
    rw [List.map_map]
    rfl
  unfold api_routeset
  rw [hlen]
  by_cases hc : qs.length > limit
  · simp [hc]
  · simp only [hc, if_false]
    rw [emap, emap, hfc, ekey, ekey, hfc]

theorem c9_position_ignored_witness :
    api_routeset [] 100 [⟨"AFR136", some 49, some (-8)⟩, ⟨"DEOZK", none, none⟩]
      = api_routeset [] 100 [⟨"AFR136", none, none⟩, ⟨"DEOZK", some 1, some 2⟩] :=
  c9_position_ignored [] 100 _ _ (by decide)

/-- Claim C7, evaluated at the failing input: for a store with no key in
the `route:` namespace (here one unrelated key, so N = M = 0), the
all-callsigns listing returns the empty list, but both plausibility
listings hit the `UnboundLocalError` fault — `callsigns` is assigned only
inside `if keys:`, so `return callsigns` raises — instead of returning the
empty lists that would partition the (empty) callsign set. -/
theorem c7_empty_scan_fault :
    all_callsigns_core [("foo", JsonVal.jnull)] = []
    ∧ get_callsigns_by_plausibility [("foo", JsonVal.jnull)] 1
        = .error .unboundLocalFault
    ∧ get_callsigns_by_plausibility [("foo", JsonVal.jnull)] 0
        = .error .unboundLocalFault :=
  ⟨rfl, rfl, rfl⟩

/-- Claim C10 (amended): the admin set operation validates nothing — for
every RouteRecord, grammar-passing or not, it stores the serialized record
under `route:{callsign}` and returns the success payload; the stored key
is reported by the listing as `key.split(":")[1]`, the segment between the
first and second `:` of the key (the callsign truncated at its own first
`:`); and when the callsign fails the validator the batch endpoint can
never resolve the entry — a batch submitting it yields the empty output. -/
theorem c10_set_unvalidated (st : Store) (r : RouteRecord)
    (lat lng : Option Int) (limit : Nat) (hlim : 1 ≤ limit) :
    (set_route st r).1 = ⟨"success", "Route set for " ++ r.callsign ++ "."⟩
    ∧ storeGet (set_route st r).2 (routeKey r.callsign) = some (encodeRecord r)
    ∧ stripKey (routeKey r.callsign) ∈ all_callsigns_core (set_route st r).2
    ∧ (validate r.callsign = false →
        (api_routeset (set_route st r).2 limit [⟨r.callsign, lat, lng⟩]).1
          = .ok []) := by
  refine ⟨rfl, storeGet_storeSet_self st _ _, ?_, ?_⟩
  · unfold all_callsigns_core scanKeys
    refine List.mem_map.mpr ⟨routeKey r.callsign, ?_, rfl⟩
    refine List.mem_filter.mpr ⟨?_, matchesRouteGlob_routeKey r.callsign⟩
    exact mem_keys_storeSet st _ _
  · intro hv
    have hnz : ¬ limit = 0 := by omega
    simp [api_routeset, List.filter_cons, hv, gatherExcept, hnz]

theorem c10_set_unvalidated_witness :
    (set_route [] ⟨"CDG-ORD", "LFPG-KORD", "ab:1x", 1⟩).1
        = ⟨"success", "Route set for " ++ "ab:1x" ++ "."⟩
    ∧ storeGet (set_route [] ⟨"CDG-ORD", "LFPG-KORD", "ab:1x", 1⟩).2
          (routeKey "ab:1x")
        = some (encodeRecord ⟨"CDG-ORD", "LFPG-KORD", "ab:1x", 1⟩)
    ∧ stripKey (routeKey "ab:1x")
        ∈ all_callsigns_core (set_route [] ⟨"CDG-ORD", "LFPG-KORD", "ab:1x", 1⟩).2
    ∧ (api_routeset (set_route [] ⟨"CDG-ORD", "LFPG-KORD", "ab:1x", 1⟩).2 1
          [⟨"ab:1x", none, none⟩]).1 = .ok [] := by
  have h := c10_set_unvalidated [] ⟨"CDG-ORD", "LFPG-KORD", "ab:1x", 1⟩
    none none 1 (by decide)
  exact ⟨h.1, h.2.1, h.2.2.1, h.2.2.2 (by decide)⟩

/-- Claim C10, counterexample to the listing phrasing as stated: after
storing a record whose callsign `"AB:CD"` contains a colon, the listing
does not report the callsign obtained by stripping the key only up to its
first `:` (which would be `"AB:CD"`); it reports the truncated `"AB"`. -/
theorem c10_listing_counterexample :
    all_callsigns_core (set_route [] ⟨"CDG-ORD", "LFPG-KORD", "AB:CD", 1⟩).2
        = ["AB"]
    ∧ "AB:CD" ∉
        all_callsigns_core (set_route [] ⟨"CDG-ORD", "LFPG-KORD", "AB:CD", 1⟩).2 := by
  refine ⟨rfl, ?_⟩
  decide

end FlightRoutes
